import Mathlib

/-
Verification development for the `build_html_toc.py` script of the
poppyverse-interactive-map repository.

The script is shallowly embedded below.  Python strings are modelled as
lists of characters (`Str`).  `str.strip` is modelled by `trim` (ASCII
whitespace, which covers every input the claims exercise), `str.lower`
by a character-wise `Char.toLower` (identical to Python on ASCII), and
`x in y` substring tests by `containsSeq`.  Python dicts built by
comprehension or repeated assignment are modelled as association lists
with in-place overwrite (`insertNorm`, `insertMeta`), which reproduces
CPython's insertion-order key semantics.  `csv.DictReader` rows are
association lists from original header text to cell text, looked up
with last-binding-wins semantics (`rowGet`), matching dict construction
from `zip(fieldnames, row)`.  File and process effects in `main` are
modelled by a pure `mainRun` over optional in-memory CSV files,
returning the exit code, the stdout line, the stderr diagnostic and the
written HTML.
-/

/-- Python strings, modelled as lists of characters. -/
abbrev Str := List Char

/-- ASCII whitespace, as recognised by `str.strip` on the inputs in scope. -/
def isPySpace (c : Char) : Bool :=
  c == ' ' || c == '\t' || c == '\n' || c == '\r' || c == '\x0b' || c == '\x0c'

/-- `str.strip()`: drop whitespace from both ends. -/
def trim (s : Str) : Str :=
  ((s.dropWhile isPySpace).reverse.dropWhile isPySpace).reverse

/-- `str.lower()`, character-wise (identical to Python on ASCII). -/
def lowerStr (s : Str) : Str := s.map Char.toLower

/-- `s.strip().lower()`: the normalization applied to headers and candidates. -/
def normStr (s : Str) : Str := lowerStr (trim s)

/-- `needle` is a prefix of `hay`. -/
def leadsWith : Str → Str → Bool
  | [], _ => true
  | _ :: _, [] => false
  | a :: as, b :: bs => a == b && leadsWith as bs

/-- Python's `needle in hay` substring test. -/
def containsSeq (needle : Str) : Str → Bool
  | [] => needle.isEmpty
  | c :: rest => leadsWith needle (c :: rest) || containsSeq needle rest

/-- Python's `s.split(",")`: split at every comma, keeping empty pieces. -/
def splitOnComma : Str → List Str
  | [] => [[]]
  | c :: rest =>
    if c == ',' then [] :: splitOnComma rest
    else
      match splitOnComma rest with
      | [] => [[c]]
      | p :: ps => (c :: p) :: ps

/-- One binding step of the dict comprehension
`{str(h or "").strip().lower(): h for h in header_row}`:
an existing key keeps its position but gets the new value, a fresh key
is appended at the end (CPython insertion-order semantics). -/
def insertNorm (d : List (Str × Str)) (k v : Str) : List (Str × Str) :=
  match d with
  | [] => [(k, v)]
  | (k', v') :: rest =>
    if k' == k then (k', v) :: rest else (k', v') :: insertNorm rest k v

/-- The reverse lookup `normalized` built by `find_col` from the header row. -/
def normDict (header : List Str) : List (Str × Str) :=
  header.foldl (fun d h => insertNorm d (normStr h) h) []

/-- The body of the candidate loop of `find_col` for one candidate `key`:
`if key in normalized: return normalized[key]`, else the substring scan
`for k in normalized: if key and key in k: return normalized[k]`. -/
def tryCand (d : List (Str × Str)) (key : Str) : Option Str :=
  match d.find? (fun p => p.1 == key) with
  | some p => some p.2
  | none =>
    match d.find? (fun p => !key.isEmpty && containsSeq key p.1) with
    | some p => some p.2
    | none => none

/-- The `for cand in candidates` loop of `find_col`. -/
def findColAux (d : List (Str × Str)) : List Str → Option Str
  | [] => none
  | c :: cs =>
    match tryCand d (normStr c) with
    | some v => some v
    | none => findColAux d cs

/-- `find_col(header_row, candidates)` from `build_html_toc.py`. -/
def find_col (header : List Str) (candidates : List Str) : Option Str :=
  if header.isEmpty then none
  else findColAux (normDict header) candidates

/-- `normalize_hex(val)` from `build_html_toc.py`. -/
def normalize_hex (val : Str) : Str :=
  let s := trim val
  if s.isEmpty then []
  else if leadsWith ['#'] s then s
  else '#' :: s

/-- A `csv.DictReader` row: original header text paired with cell text. -/
abbrev Row := List (Str × Str)

/-- `row.get(col)`: dict lookup; a repeated header keeps the last cell,
as in a dict built from `zip(fieldnames, row)`. -/
def rowGet (row : Row) (k : Str) : Option Str :=
  row.foldl (fun acc p => if p.1 == k then some p.2 else acc) none

/-- `row.get(col) or ""`: a missing column reads as the empty string. -/
def rowGetD (row : Row) (k : Str) : Str := (rowGet row k).getD []

/-- One entry of `by_cluster`: the dict
`{"name": raw_name, "url": url, "chars": chars_list}`. -/
structure Entry where
  name : Str
  url : Str
  chars : List Str
deriving DecidableEq, Repr

/-- The ordered `by_cluster` mapping: labels paired with their entries,
in first-creation order. -/
abbrev GroupIndex := List (Str × List Entry)

/-- `by_cluster.setdefault(raw_cluster, []); by_cluster[raw_cluster].append(e)`:
append to the group with this key, creating it at the end on first sight. -/
def addToGroup : GroupIndex → Str → Entry → GroupIndex
  | [], k, e => [(k, [e])]
  | (k', es) :: rest, k, e =>
    if k' == k then (k', es ++ [e]) :: rest
    else (k', es) :: addToGroup rest k e

/-- Lookup of a group's entry list (empty when the label is absent). -/
def giGet (gi : GroupIndex) (k : Str) : List Entry :=
  match gi with
  | [] => []
  | p :: rest => if p.1 == k then p.2 else giGet rest k

/-- `[c.strip() for c in raw_chars.split(",") if c.strip()] if raw_chars else []`. -/
def parseChars (raw : Str) : List Str :=
  if raw.isEmpty then []
  else (splitOnComma raw).filterMap
    (fun c => if (trim c).isEmpty then none else some (trim c))

/-- The per-row survival test: `if not raw_name or not raw_cluster: continue`. -/
def rowOk (name_col tag_col : Str) (row : Row) : Bool :=
  !(trim (rowGetD row name_col)).isEmpty && !(trim (rowGetD row tag_col)).isEmpty

/-- `raw_cluster`: the trimmed tag cell of a row. -/
def rowTag (tag_col : Str) (row : Row) : Str := trim (rowGetD row tag_col)

/-- The entry built from a surviving row (`raw_name`, `url`, `chars_list`). -/
def mkEntry (name_col : Str) (url_col chars_col : Option Str) (row : Row) : Entry :=
  { name := trim (rowGetD row name_col)
    url := match url_col with
      | some c => trim (rowGetD row c)
      | none => []
    chars := parseChars (match chars_col with
      | some c => trim (rowGetD row c)
      | none => []) }

/-- The body of the `for row in rdr` loop of `read_rows`. -/
def stepRow (name_col tag_col : Str) (url_col chars_col : Option Str)
    (gi : GroupIndex) (row : Row) : GroupIndex :=
  if rowOk name_col tag_col row then
    addToGroup gi (rowTag tag_col row) (mkEntry name_col url_col chars_col row)
  else gi

/-- The whole row loop of `read_rows`, from the empty `OrderedDict`. -/
def groupRows (name_col tag_col : Str) (url_col chars_col : Option Str)
    (rows : List Row) : GroupIndex :=
  rows.foldl (stepRow name_col tag_col url_col chars_col) []

/-- Candidate headers for the Name column in `read_rows`. -/
def nameCands : List Str := [("name").toList, ("title").toList, ("label").toList]

/-- Candidate headers for the Tag column in `read_rows`. -/
def tagCands : List Str :=
  [("tag").toList, ("tags").toList, ("category").toList, ("cluster").toList]

/-- Candidate headers for the URL column in `read_rows`. -/
def urlCands : List Str :=
  [("content url").toList, ("url").toList, ("link").toList,
   ("href").toList, ("permalink").toList]

/-- Candidate headers for the Characters column in `read_rows`. -/
def charsCands : List Str :=
  [("characters").toList, ("character").toList, ("cast").toList, ("who").toList]

/-- An in-memory CSV as seen through `csv.DictReader`: the `fieldnames`
(`[]` models a falsy `fieldnames`, i.e. an empty file) and the data rows. -/
structure CsvFile where
  fieldnames : List Str
  rows : List Row

/-- `read_rows(csv_path)`: resolve the columns, then group the rows;
a `SystemExit` with its message is modelled as `Except.error`. -/
def read_rows (f : CsvFile) : Except Str GroupIndex :=
  if f.fieldnames.isEmpty then Except.error (("CSV has no header row.").toList)
  else
    match find_col f.fieldnames nameCands, find_col f.fieldnames tagCands with
    | some name_col, some tag_col =>
      Except.ok (groupRows name_col tag_col
        (find_col f.fieldnames urlCands) (find_col f.fieldnames charsCands) f.rows)
    | _, _ =>
      Except.error (("Need NAME and TAG/CLUSTER columns (case-insensitive).").toList)

/-- The value part of the `cluster_table.csv` lookup:
`{"color": ..., "desc": ...}`. -/
structure MetaInfo where
  color : Str
  desc : Str
deriving DecidableEq, Repr

/-- `out[name] = {...}` dict assignment: overwrite in place, append if new. -/
def insertMeta (d : List (Str × MetaInfo)) (k : Str) (v : MetaInfo) :
    List (Str × MetaInfo) :=
  match d with
  | [] => [(k, v)]
  | (k', v') :: rest =>
    if k' == k then (k', v) :: rest else (k', v') :: insertMeta rest k v

/-- `cluster_info.get(cluster)` dict lookup. -/
def metaGet (m : List (Str × MetaInfo)) (k : Str) : Option MetaInfo :=
  match m.find? (fun p => p.1 == k) with
  | some p => some p.2
  | none => none

/-- The `color` stored for one metadata row:
`normalize_hex((row.get(color_col) or "").strip()) if color_col else ""`. -/
def metaColor (color_col : Option Str) (row : Row) : Str :=
  match color_col with
  | some c => normalize_hex (trim (rowGetD row c))
  | none => []

/-- The `desc` stored for one metadata row:
`(row.get(desc_col) or "").strip() if desc_col else ""`. -/
def metaDesc (desc_col : Option Str) (row : Row) : Str :=
  match desc_col with
  | some c => trim (rowGetD row c)
  | none => []

/-- The body of the `for row in rdr` loop of `read_cluster_info`. -/
def clusterInfoStep (name_col : Str) (color_col desc_col : Option Str)
    (out : List (Str × MetaInfo)) (row : Row) : List (Str × MetaInfo) :=
  if (trim (rowGetD row name_col)).isEmpty then out
  else insertMeta out (trim (rowGetD row name_col))
    ⟨metaColor color_col row, metaDesc desc_col row⟩

/-- `read_cluster_info(path)`: `none` models a missing file (which yields
an empty mapping); header resolution and the row loop follow the source. -/
def read_cluster_info (file : Option CsvFile) : List (Str × MetaInfo) :=
  match file with
  | none => []
  | some f =>
    if f.fieldnames.isEmpty then []
    else
      match find_col f.fieldnames
          [("name").toList, ("cluster").toList, ("universe").toList] with
      | none => []
      | some name_col =>
        f.rows.foldl
          (clusterInfoStep name_col
            (find_col f.fieldnames
              [("hex code color").toList, ("hex").toList, ("color").toList])
            (find_col f.fieldnames
              [("description").toList, ("desc").toList, ("blurb").toList,
               ("summary").toList]))
          []

/-- `html.escape` on one character (`quote=True`, the default used here). -/
def escapeChar (c : Char) : Str :=
  if c == '&' then ("&amp;").toList
  else if c == '<' then ("&lt;").toList
  else if c == '>' then ("&gt;").toList
  else if c == '"' then ("&quot;").toList
  else if c == '\'' then ("&#x27;").toList
  else [c]

/-- `html.escape(s)` with `quote=True` (its default). -/
def escape : Str → Str
  | [] => []
  | c :: s => escapeChar c ++ escape s

/-- `DEFAULT_COLOR = "#ff1447"` (poppy-red fallback). -/
def DEFAULT_COLOR : Str := ("#ff1447").toList

/-- `info.get("color") or DEFAULT_COLOR` where
`info = cluster_info.get(cluster, {})`. -/
def clusterColor (m : List (Str × MetaInfo)) (cluster : Str) : Str :=
  match metaGet m cluster with
  | some i => if i.color.isEmpty then DEFAULT_COLOR else i.color
  | none => DEFAULT_COLOR

/-- `info.get("desc") or ""` where `info = cluster_info.get(cluster, {})`. -/
def clusterDesc (m : List (Str × MetaInfo)) (cluster : Str) : Str :=
  match metaGet m cluster with
  | some i => i.desc
  | none => []

/-- The fixed first element appended to `parts` in `build_html`. -/
def wrapperPart : Str :=
  (("<div style=\"font-family: Arial, sans-serif; font-size:14px; "
    ++ "line-height:1.45; color:#ffffff;\">"
    ++ "<div style=\"opacity:0.85; margin-bottom:14px;\">"
    ++ "Static TOC generated from the same CSV as the 3D map. "
    ++ "If something looks wrong, blame the multiverse."
    ++ "</div>" ++ "</div>")).toList

/-- `table_style` of `build_html`, an f-string over the cluster color. -/
def table_style (color : Str) : Str :=
  (("width:100%; border-collapse:collapse; font-family: Arial, sans-serif; "
    ++ "font-size:13px; line-height:1.4; color:#ffffff; "
    ++ "border:1px solid ")).toList ++ escape color ++ ((";")).toList

/-- `th_style` of `build_html`. -/
def th_style (color : Str) : Str :=
  (("padding:8px 10px; text-align:left; font-weight:800; "
    ++ "border-bottom:1px solid ")).toList ++ escape color
    ++ (("; color:#ffffff;")).toList

/-- `td_style` of `build_html`. -/
def td_style (color : Str) : Str :=
  (("padding:7px 10px; vertical-align:top; border-bottom:1px solid ")).toList
    ++ escape color ++ ((";")).toList

/-- `name_style` of `build_html`. -/
def name_style : Str := (("font-weight:800;")).toList

/-- `chars_style` of `build_html`. -/
def chars_style : Str := (("color:#bdbdc7;")).toList

/-- `link_style` of `build_html`. -/
def link_style (color : Str) : Str :=
  (("color:")).toList ++ escape color
    ++ (("; font-weight:800; text-decoration:underline;")).toList

/-- The five `parts` appended for one table row of `build_html`. -/
def renderEntry (color : Str) (entry : Entry) : List Str :=
  let name := escape entry.name
  let chars_txt :=
    if entry.chars.isEmpty then ("—").toList
    else List.intercalate ((", ").toList) (entry.chars.map escape)
  let url := trim entry.url
  let link_cell :=
    if url.isEmpty then ("<span style=\"opacity:0.65;\">—</span>").toList
    else ("<a href=\"").toList ++ escape url
      ++ ("\" target=\"_blank\" rel=\"noopener\" style=\"").toList
      ++ link_style color ++ ("\">READ MORE</a>").toList
  [("<tr>").toList,
   ("<td style=\"").toList ++ td_style color ++ [' '] ++ name_style
     ++ ("\">").toList ++ name ++ ("</td>").toList,
   ("<td style=\"").toList ++ td_style color ++ [' '] ++ chars_style
     ++ ("\">").toList ++ chars_txt ++ ("</td>").toList,
   ("<td style=\"").toList ++ td_style color ++ ("\">").toList
     ++ link_cell ++ ("</td>").toList,
   ("</tr>").toList]

/-- The `parts` appended for one cluster of `build_html`: heading,
optional description, table head, the rows, table end and spacer. -/
def renderCluster (cluster_info : List (Str × MetaInfo)) (cluster : Str)
    (items : List Entry) : List Str :=
  let color := clusterColor cluster_info cluster
  let desc := clusterDesc cluster_info cluster
  ([("<div style=\"margin:22px 0 8px;\"><div style=\"font-family: Arial, "
      ++ "sans-serif; font-size:20px; font-weight:800; letter-spacing:0.4px; "
      ++ "color:").toList ++ escape color ++ ((";\">")).toList
      ++ escape cluster ++ (("</div>")).toList]
    ++ (if desc.isEmpty then []
        else [("<div style=\"font-family: Arial, sans-serif; font-size:13px; "
          ++ "line-height:1.5; color:#d7d7df; margin-top:6px; "
          ++ "margin-bottom:10px; border-left:3px solid ").toList
          ++ escape color ++ (("; padding-left:10px;\">")).toList
          ++ escape desc ++ (("</div>")).toList])
    ++ [(("</div>")).toList,
        ("<table style=\"").toList ++ table_style color ++ (("\">")).toList,
        ("<thead><tr>").toList,
        ("<th style=\"").toList ++ th_style color ++ ("\">Name</th>").toList,
        ("<th style=\"").toList ++ th_style color
          ++ ("\">Characters</th>").toList,
        ("<th style=\"").toList ++ th_style color ++ ("\">Link</th>").toList,
        ("</tr></thead>").toList,
        ("<tbody>").toList]
    ++ items.flatMap (renderEntry color)
    ++ [("</tbody></table>").toList,
        ("<div style=\"height:12px;\"></div>").toList])

/-- `build_html(by_cluster, cluster_info)`: all `parts`, joined with `"\n"`. -/
def build_html (by_cluster : GroupIndex)
    (cluster_info : List (Str × MetaInfo)) : Str :=
  List.intercalate (("\n").toList)
    (wrapperPart :: by_cluster.flatMap (fun p => renderCluster cluster_info p.1 p.2))

/-- Decimal rendering of a count interpolated into the summary line. -/
def natStr (n : Nat) : Str := Nat.toDigits 10 n

/-- `sum(len(v) for v in by_cluster.values())`. -/
def countItems (gi : GroupIndex) : Nat := (gi.map (fun p => p.2.length)).sum

/-- The summary `f"Wrote {out_path.name}: {n} items, {m} clusters."`
printed on success (`out_path.name` is the constant `tags_list.html`). -/
def summaryLine (items clusters : Nat) : Str :=
  ("Wrote tags_list.html: ").toList ++ natStr items
    ++ (" items, ").toList ++ natStr clusters ++ (" clusters.").toList

/-- Outcome of one run of `main`: the process exit code, what was printed
to stdout and stderr, and the HTML written to the output file (if any). -/
structure RunResult where
  exitCode : Nat
  stdoutText : Str
  stderrText : Str
  written : Option Str
deriving Repr

/-- `main()`, as a pure function of the two files it may read.  `none`
models a missing file.  The diagnostic for a missing input file carries
the fixed file name (the directory interpolated by the f-string is
environment data and is omitted). -/
def mainRun (input clusterFile : Option CsvFile) : RunResult :=
  match input with
  | none =>
    { exitCode := 1, stdoutText := [],
      stderrText := ("Cannot find the_poppy_board_v7.csv").toList,
      written := none }
  | some f =>
    match read_rows f with
    | Except.error e =>
      { exitCode := 1, stdoutText := [], stderrText := e, written := none }
    | Except.ok by_cluster =>
      if by_cluster.isEmpty then
        { exitCode := 1, stdoutText := [],
          stderrText := ("No valid rows found.").toList, written := none }
      else
        { exitCode := 0,
          stdoutText := summaryLine (countItems by_cluster) by_cluster.length,
          stderrText := [],
          written := some (build_html by_cluster (read_cluster_info clusterFile)) }

/-- One step of first-occurrence key accumulation. -/
def keyFold (ks : List Str) (k : Str) : List Str :=
  if ks.contains k then ks else ks ++ [k]

/-- The distinct elements of a list, in order of first occurrence. -/
def firstKeys (l : List Str) : List Str := l.foldl keyFold []

theorem addToGroup_map_fst (gi : GroupIndex) (k : Str) (e : Entry) :
    (addToGroup gi k e).map Prod.fst = keyFold (gi.map Prod.fst) k := by
  induction gi with
  | nil => simp [addToGroup, keyFold]
  | cons p rest ih =>
    obtain ⟨k', es⟩ := p
    by_cases h : k' = k
    · subst h
      simp [addToGroup, keyFold, List.contains_cons]
    · have hb : (k' == k) = false := beq_eq_false_iff_ne.mpr h
      have hb' : (k == k') = false := beq_eq_false_iff_ne.mpr (Ne.symm h)
      simp only [addToGroup, hb, Bool.false_eq_true, if_false, List.map_cons]
      rw [ih]
      unfold keyFold
      simp only [List.contains_cons, hb', Bool.false_or]
      by_cases hc : (List.map Prod.fst rest).contains k = true
      · rw [if_pos hc, if_pos hc]
      · rw [if_neg hc, if_neg hc, List.cons_append]

theorem giGet_addToGroup (gi : GroupIndex) (k k' : Str) (e : Entry) :
    giGet (addToGroup gi k e) k' =
      if k' = k then giGet gi k ++ [e] else giGet gi k' := by
  induction gi with
  | nil =>
    by_cases h : k' = k
    · subst h; simp [addToGroup, giGet]
    · have hb : (k == k') = false := beq_eq_false_iff_ne.mpr (Ne.symm h)
      simp [addToGroup, giGet, h, hb]
  | cons p rest ih =>
    obtain ⟨k₀, es⟩ := p
    by_cases h0 : k₀ = k
    · subst h0
      by_cases h : k' = k₀
      · subst h; simp [addToGroup, giGet]
      · have hb : (k₀ == k') = false := beq_eq_false_iff_ne.mpr (Ne.symm h)
        simp [addToGroup, giGet, h, hb]
    · have hb0 : (k₀ == k) = false := beq_eq_false_iff_ne.mpr h0
      by_cases h : k' = k₀
      · subst h
        have hne : ¬(k' = k) := h0
        simp [addToGroup, giGet, hb0, hne]
      · have hb : (k₀ == k') = false := beq_eq_false_iff_ne.mpr (Ne.symm h)
        simp only [addToGroup, hb0, Bool.false_eq_true, if_false, giGet, hb]
        exact ih

theorem foldl_stepRow_map_fst (nc tc : Str) (uc cc : Option Str)
    (rows : List Row) :
    ∀ gi : GroupIndex,
      (rows.foldl (stepRow nc tc uc cc) gi).map Prod.fst =
        ((rows.filter (rowOk nc tc)).map (rowTag tc)).foldl keyFold
          (gi.map Prod.fst) := by
  induction rows with
  | nil => intro gi; rfl
  | cons r rs ih =>
    intro gi
    by_cases h : rowOk nc tc r = true
    · simp only [List.foldl_cons, List.filter_cons, h, if_true, List.map_cons]
      rw [ih]
      simp only [stepRow, h, if_true, addToGroup_map_fst]
    · simp only [List.foldl_cons, List.filter_cons, h]
      rw [ih]
      simp only [stepRow, h, Bool.false_eq_true, if_false]

theorem foldl_stepRow_giGet (nc tc : Str) (uc cc : Option Str)
    (rows : List Row) :
    ∀ (gi : GroupIndex) (k : Str),
      giGet (rows.foldl (stepRow nc tc uc cc) gi) k =
        giGet gi k ++
          ((rows.filter (rowOk nc tc)).filter
              (fun r => rowTag tc r == k)).map (mkEntry nc uc cc) := by
  induction rows with
  | nil => intro gi k; simp
  | cons r rs ih =>
    intro gi k
    by_cases h : rowOk nc tc r = true
    · simp only [List.foldl_cons, List.filter_cons, h, if_true]
      rw [ih]
      simp only [stepRow, h, if_true, giGet_addToGroup]
      by_cases ht : rowTag tc r = k
      · have hb : (rowTag tc r == k) = true := beq_iff_eq.mpr ht
        rw [if_pos ht.symm]
        simp [List.filter_cons, hb, List.append_assoc, ht]
      · have hb : (rowTag tc r == k) = false := beq_eq_false_iff_ne.mpr ht
        rw [if_neg (fun hk => ht hk.symm)]
        simp only [List.filter_cons, hb, Bool.false_eq_true, if_false]
    · simp only [List.foldl_cons, List.filter_cons, h, Bool.false_eq_true,
        if_false]
      rw [ih]
      simp only [stepRow, h, Bool.false_eq_true, if_false]

/-- The full characterization of the grouper: group labels are the
distinct trimmed tags of the surviving rows in first-occurrence order,
and each group holds exactly the entries of surviving rows carrying
exactly that tag, in source order. -/
theorem groupRows_spec (nc tc : Str) (uc cc : Option Str) (rows : List Row) :
    (groupRows nc tc uc cc rows).map Prod.fst =
        firstKeys ((rows.filter (rowOk nc tc)).map (rowTag tc))
    ∧ ∀ k : Str,
        giGet (groupRows nc tc uc cc rows) k =
          ((rows.filter (rowOk nc tc)).filter
              (fun r => rowTag tc r == k)).map (mkEntry nc uc cc) := by
  constructor
  · exact foldl_stepRow_map_fst nc tc uc cc rows []
  · intro k
    simpa using foldl_stepRow_giGet nc tc uc cc rows [] k

theorem escapeChar_safe (c : Char) :
    (escapeChar c).all (fun d => !(d == '<') && !(d == '>') && !(d == '"'))
      = true := by
  by_cases h1 : c = '&'
  · subst h1; decide
  · by_cases h2 : c = '<'
    · subst h2; decide
    · by_cases h3 : c = '>'
      · subst h3; decide
      · by_cases h4 : c = '"'
        · subst h4; decide
        · by_cases h5 : c = '\''
          · subst h5; decide
          · have b1 := beq_eq_false_iff_ne.mpr h1
            have b2 := beq_eq_false_iff_ne.mpr h2
            have b3 := beq_eq_false_iff_ne.mpr h3
            have b4 := beq_eq_false_iff_ne.mpr h4
            have b5 := beq_eq_false_iff_ne.mpr h5
            simp [escapeChar, b1, b2, b3, b4, b5]

theorem escape_safe (s : Str) :
    (escape s).all (fun d => !(d == '<') && !(d == '>') && !(d == '"'))
      = true := by
  induction s with
  | nil => rfl
  | cons c t ih =>
    simp only [escape, List.all_append, ih, escapeChar_safe, Bool.and_self]

theorem parseChars_all_nonempty (raw : Str) :
    (parseChars raw).all (fun c => !c.isEmpty) = true := by
  unfold parseChars
  split
  · rfl
  · rw [List.all_eq_true]
    intro x hx
    rw [List.mem_filterMap] at hx
    obtain ⟨a, _, ha⟩ := hx
    by_cases he : (trim a).isEmpty = true
    · simp [he] at ha
    · simp only [he, Bool.false_eq_true, if_false, Option.some.injEq] at ha
      subst ha
      have hf : (trim a).isEmpty = false := eq_false_of_ne_true he
      simp [hf]

theorem addToGroup_all_nonempty (gi : GroupIndex) (k : Str) (e : Entry)
    (h : gi.all (fun p => !p.2.isEmpty) = true) :
    (addToGroup gi k e).all (fun p => !p.2.isEmpty) = true := by
  induction gi with
  | nil => simp [addToGroup]
  | cons p rest ih =>
    obtain ⟨k', es⟩ := p
    simp only [List.all_cons, Bool.and_eq_true] at h
    by_cases hk : (k' == k) = true
    · simp only [addToGroup, hk, if_true, List.all_cons, Bool.and_eq_true]
      refine ⟨?_, h.2⟩
      simp
    · simp only [addToGroup, hk, Bool.false_eq_true, if_false, List.all_cons,
        Bool.and_eq_true]
      refine ⟨h.1, ih h.2⟩

/-- Header text used by the concrete grouping examples. -/
def colName : Str := ("Name").toList

/-- Tag header text used by the concrete grouping examples. -/
def colTag : Str := ("Tag").toList

/-- Characters header text used by the concrete grouping examples. -/
def colChars : Str := ("Characters").toList

/-- Rows whose tags occur in the order B, A, B, A. -/
def rowsBABA : List Row :=
  [[(colName, ("n1").toList), (colTag, ("B").toList)],
   [(colName, ("n2").toList), (colTag, ("A").toList)],
   [(colName, ("n3").toList), (colTag, ("B").toList)],
   [(colName, ("n4").toList), (colTag, ("A").toList)]]

/-- Rows whose tags differ only in letter case. -/
def rowsCase : List Row :=
  [[(colName, ("n5").toList), (colTag, ("Red").toList)],
   [(colName, ("n6").toList), (colTag, ("red").toList)]]

theorem foldl_stepRow_all_nonempty (nc tc : Str) (uc cc : Option Str)
    (rows : List Row) :
    ∀ gi : GroupIndex, gi.all (fun p => !p.2.isEmpty) = true →
      (rows.foldl (stepRow nc tc uc cc) gi).all (fun p => !p.2.isEmpty)
        = true := by
  induction rows with
  | nil => intro gi h; exact h
  | cons r rs ih =>
    intro gi h
    rw [List.foldl_cons]
    apply ih
    unfold stepRow
    split
    · exact addToGroup_all_nonempty gi _ _ h
    · exact h

/-- C3: the grouper keys each surviving entry by the exact
whitespace-trimmed tag string (case-variant tags form distinct groups),
groups appear in first-occurrence order, entries within a group keep
their source-row relative order, and rows with tags B, A, B, A yield
the groups B, A with group B's two entries in original order. -/
theorem c3_grouping (nc tc : Str) (uc cc : Option Str) (rows : List Row) :
    ((groupRows nc tc uc cc rows).map Prod.fst =
        firstKeys ((rows.filter (rowOk nc tc)).map (rowTag tc))
      ∧ ∀ k : Str,
          giGet (groupRows nc tc uc cc rows) k =
            ((rows.filter (rowOk nc tc)).filter
                (fun r => rowTag tc r == k)).map (mkEntry nc uc cc))
    ∧ (groupRows colName colTag none none rowsBABA).map Prod.fst
        = [("B").toList, ("A").toList]
    ∧ giGet (groupRows colName colTag none none rowsBABA) (("B").toList)
        = [⟨("n1").toList, [], []⟩, ⟨("n3").toList, [], []⟩]
    ∧ (groupRows colName colTag none none rowsCase).map Prod.fst
        = [("Red").toList, ("red").toList] :=
  ⟨groupRows_spec nc tc uc cc rows, by decide, by decide, by decide⟩

/-- The example row whose Characters cell is `"Ann, Bob,, Cleo "`. -/
def rowChars : Row :=
  [(colName, ("N").toList), (colTag, ("T").toList),
   (colChars, ("Ann, Bob,, Cleo ").toList)]

/-- C6: a Characters cell is split on commas, each piece trimmed, empty
pieces dropped in order (`"Ann, Bob,, Cleo "` yields Ann, Bob, Cleo);
an empty cell or an unresolved Characters column yields the empty list,
and no entry's characters list contains an empty string. -/
theorem c6_char_splitting :
    giGet (groupRows colName colTag none (some colChars) [rowChars])
        (("T").toList)
      = [⟨("N").toList, [],
          [("Ann").toList, ("Bob").toList, ("Cleo").toList]⟩]
    ∧ parseChars [] = []
    ∧ (∀ (nc : Str) (uc : Option Str) (row : Row),
        (mkEntry nc uc none row).chars = [])
    ∧ ∀ (nc tc : Str) (uc cc : Option Str) (rows : List Row) (k : Str),
        ((giGet (groupRows nc tc uc cc rows) k).all
            (fun e => e.chars.all (fun c => !c.isEmpty))) = true := by
  refine ⟨by decide, rfl, fun nc uc row => rfl, ?_⟩
  intro nc tc uc cc rows k
  rw [(groupRows_spec nc tc uc cc rows).2 k, List.all_eq_true]
  intro e he
  rw [List.mem_map] at he
  obtain ⟨r, _, hr⟩ := he
  subst hr
  exact parseChars_all_nonempty _

/-- C7: a row whose Name or Tag is empty after trimming is silently
skipped; it contributes no entry and leaves the grouping of the
remaining rows unchanged. -/
theorem c7_skip_bad_rows (nc tc : Str) (uc cc : Option Str)
    (pre post : List Row) (row : Row)
    (h : (trim (rowGetD row nc)).isEmpty = true
       ∨ (trim (rowGetD row tc)).isEmpty = true) :
    groupRows nc tc uc cc (pre ++ row :: post)
      = groupRows nc tc uc cc (pre ++ post) := by
  have hok : rowOk nc tc row = false := by
    unfold rowOk
    rcases h with h | h <;> simp [h]
  unfold groupRows
  rw [List.foldl_append, List.foldl_append, List.foldl_cons]
  congr 1
  simp [stepRow, hok]

/-- A row whose Name cell trims to the empty string. -/
def badRow : Row := [(colName, ("  ").toList), (colTag, ("B").toList)]

/-- A surviving row. -/
def goodRow : Row := [(colName, ("n7").toList), (colTag, ("G").toList)]

/-- Witness for C7 at a concrete skipped row. -/
theorem c7_skip_bad_rows_witness :
    (trim (rowGetD badRow colName)).isEmpty = true
    ∧ groupRows colName colTag none none ([] ++ badRow :: [goodRow])
        = groupRows colName colTag none none ([] ++ [goodRow]) :=
  ⟨by decide, c7_skip_bad_rows colName colTag none none [] [goodRow] badRow
      (Or.inl (by decide))⟩

/-- C10: every group the grouper yields contains at least one entry:
a key is created only together with the append of its first entry. -/
theorem c10_no_empty_groups (nc tc : Str) (uc cc : Option Str)
    (rows : List Row) :
    (groupRows nc tc uc cc rows).all (fun p => !p.2.isEmpty) = true :=
  foldl_stepRow_all_nonempty nc tc uc cc rows [] rfl

/-- The entry of the escaping scenario: a name containing a script tag
and a URL containing a double quote. -/
def evilEntry : Entry :=
  { name := ("<script>alert(1)</script>").toList,
    url := ("http://x\"y").toList, chars := [] }

/-- The grouped input of the escaping scenario. -/
def evilGi : GroupIndex := [(("Evil").toList, [evilEntry])]

/-- Metadata carrying a hostile color and description for that group. -/
def evilMeta : List (Str × MetaInfo) :=
  [(("Evil").toList, ⟨("\">red").toList, ("A <desc> & more").toList⟩)]

/-- The fragment rendered from the escaping scenario. -/
def evilHtml : Str := build_html evilGi evilMeta

set_option maxRecDepth 400000 in
/-- C2: every escaped interpolation is free of raw angle brackets and
double quotes, and concretely: a Name containing a script tag appears
in the rendered fragment only as escaped literal text, a URL containing
a double quote has that quote escaped inside the href attribute value,
and a hostile color and description are likewise only present in
escaped form. -/
theorem c2_escaping :
    (∀ s : Str,
        (escape s).all (fun d => !(d == '<') && !(d == '>') && !(d == '"'))
          = true)
    ∧ containsSeq (("<script").toList) evilHtml = false
    ∧ containsSeq (("&lt;script&gt;alert(1)&lt;/script&gt;").toList) evilHtml
        = true
    ∧ containsSeq (("href=\"http://x&quot;y\"").toList) evilHtml = true
    ∧ containsSeq (("x\"y").toList) evilHtml = false
    ∧ containsSeq (("\">red").toList) evilHtml = false
    ∧ containsSeq (("&quot;&gt;red").toList) evilHtml = true
    ∧ containsSeq (("A <desc> & more").toList) evilHtml = false
    ∧ containsSeq (("A &lt;desc&gt; &amp; more").toList) evilHtml = true :=
  ⟨escape_safe, by decide, by decide, by decide, by decide, by decide,
   by decide, by decide, by decide⟩

theorem mem_insertMeta (d : List (Str × MetaInfo)) (k : Str) (v : MetaInfo)
    (q : Str × MetaInfo) (hq : q ∈ insertMeta d k v) : q ∈ d ∨ q = (k, v) := by
  induction d with
  | nil =>
    simp only [insertMeta] at hq
    rcases List.mem_singleton.mp hq with h1
    exact Or.inr h1
  | cons p rest ih =>
    obtain ⟨k', v'⟩ := p
    by_cases h : (k' == k) = true
    · simp only [insertMeta, h, if_true] at hq
      rcases List.mem_cons.mp hq with h1 | h1
      · have hk : k' = k := beq_iff_eq.mp h
        subst hk
        exact Or.inr h1
      · exact Or.inl (List.mem_cons_of_mem _ h1)
    · rw [insertMeta, if_neg h] at hq
      rcases List.mem_cons.mp hq with h1 | h1
      · exact Or.inl (by simp [h1])
      · rcases ih h1 with h2 | h2
        · exact Or.inl (List.mem_cons_of_mem _ h2)
        · exact Or.inr h2

theorem metaGet_mem (m : List (Str × MetaInfo)) (k : Str) (i : MetaInfo)
    (h : metaGet m k = some i) : ∃ k', (k', i) ∈ m := by
  unfold metaGet at h
  rcases hf : m.find? (fun p => p.1 == k) with _ | q
  · rw [hf] at h; cases h
  · rw [hf] at h
    simp only [Option.some.injEq] at h
    subst h
    exact ⟨q.1, by simpa using List.mem_of_find?_eq_some hf⟩

theorem clusterInfoStep_inv (nc : Str) (ccol dcol : Option Str)
    (rows : List Row) :
    ∀ acc : List (Str × MetaInfo),
      (∀ q ∈ acc, ∃ raw, (q.2).color = normalize_hex raw) →
      ∀ q ∈ rows.foldl (clusterInfoStep nc ccol dcol) acc,
        ∃ raw, (q.2).color = normalize_hex raw := by
  induction rows with
  | nil => intro acc h; exact h
  | cons r rs ih =>
    intro acc h
    rw [List.foldl_cons]
    apply ih
    intro q hq
    unfold clusterInfoStep at hq
    by_cases hn : (trim (rowGetD r nc)).isEmpty = true
    · rw [if_pos hn] at hq
      exact h q hq
    · rw [if_neg hn] at hq
      rcases mem_insertMeta _ _ _ _ hq with h1 | h1
      · exact h q h1
      · subst h1
        cases ccol with
        | some c => exact ⟨trim (rowGetD r c), rfl⟩
        | none => exact ⟨[], rfl⟩

theorem read_cluster_info_color (f : Option CsvFile) (c : Str) (i : MetaInfo)
    (h : metaGet (read_cluster_info f) c = some i) :
    ∃ raw, i.color = normalize_hex raw := by
  obtain ⟨k', hm⟩ := metaGet_mem _ _ _ h
  rcases f with _ | f'
  · simp only [read_cluster_info] at hm
    cases hm
  · simp only [read_cluster_info] at hm
    by_cases he : f'.fieldnames.isEmpty = true
    · rw [if_pos he] at hm; cases hm
    · rw [if_neg he] at hm
      rcases hfc : find_col f'.fieldnames
          [("name").toList, ("cluster").toList, ("universe").toList]
        with _ | nc
      · rw [hfc] at hm; cases hm
      · rw [hfc] at hm
        exact clusterInfoStep_inv nc _ _ f'.rows []
          (fun q hq => absurd hq (List.not_mem_nil q)) (k', i) hm

set_option maxRecDepth 400000 in
/-- C9: a group heading uses the metadata color when one is present and
non-empty, otherwise the fixed default color; an absent label (and an
absent metadata file) falls back to the default color and an empty
description; every color read from metadata passes through
`normalize_hex`, which prefixes a missing leading hash and validates
nothing else; concretely the default color reaches the rendered
heading. -/
theorem c9_colors :
    (∀ (m : List (Str × MetaInfo)) (cluster : Str),
        metaGet m cluster = none →
          clusterColor m cluster = DEFAULT_COLOR ∧ clusterDesc m cluster = [])
    ∧ (∀ (m : List (Str × MetaInfo)) (cluster : Str) (i : MetaInfo),
        metaGet m cluster = some i →
          clusterColor m cluster
            = if i.color.isEmpty then DEFAULT_COLOR else i.color)
    ∧ read_cluster_info none = []
    ∧ (∀ (f : Option CsvFile) (c : Str) (i : MetaInfo),
        metaGet (read_cluster_info f) c = some i →
          ∃ raw, i.color = normalize_hex raw)
    ∧ (∀ v : Str, (trim v).isEmpty = false →
        normalize_hex v
          = if leadsWith ['#'] (trim v) then trim v else '#' :: trim v)
    ∧ containsSeq (("color:#ff1447;").toList)
        (build_html [(("Red").toList, [⟨("Alpha").toList, [], []⟩])] [])
      = true := by
  refine ⟨?_, ?_, rfl, read_cluster_info_color, ?_, by decide⟩
  · intro m cluster h
    unfold clusterColor clusterDesc
    rw [h]
    exact ⟨rfl, rfl⟩
  · intro m cluster i h
    unfold clusterColor
    rw [h]
  · intro v h
    unfold normalize_hex
    simp only [h, Bool.false_eq_true, if_false]

/-- Witness for C9 at concrete metadata and color values. -/
theorem c9_colors_witness :
    metaGet [] (("Red").toList) = none
    ∧ clusterColor [] (("Red").toList) = DEFAULT_COLOR
    ∧ (trim (("ff0000").toList)).isEmpty = false
    ∧ normalize_hex (("ff0000").toList)
        = if leadsWith ['#'] (trim (("ff0000").toList))
          then trim (("ff0000").toList)
          else '#' :: trim (("ff0000").toList) :=
  ⟨rfl, (c9_colors.1 [] (("Red").toList) rfl).1, by decide,
   c9_colors.2.2.2.2.1 (("ff0000").toList) (by decide)⟩

/-- The failure condition named by the spec: the input file is missing,
a mandatory logical column (Name or Tag) cannot be resolved from the
header, or zero valid rows survive filtering. -/
def mainFails (input : Option CsvFile) : Bool :=
  match input with
  | none => true
  | some f =>
    match find_col f.fieldnames nameCands, find_col f.fieldnames tagCands with
    | some nc, some tc =>
      (groupRows nc tc (find_col f.fieldnames urlCands)
        (find_col f.fieldnames charsCands) f.rows).isEmpty
    | _, _ => true

/-- C4: the process exits non-zero exactly in the three spec situations
(missing input, unresolvable mandatory column — which subsumes a
missing header row — or zero surviving rows), failing runs carry a
non-empty stderr diagnostic, and successful runs exit zero printing the
one-line item/group-count summary to stdout. -/
theorem c4_exit_behavior (input clusterFile : Option CsvFile) :
    ((mainRun input clusterFile).exitCode ≠ 0 ↔ mainFails input = true)
    ∧ (mainFails input = true →
        (mainRun input clusterFile).exitCode = 1
        ∧ (mainRun input clusterFile).stderrText ≠ [])
    ∧ (mainFails input = false →
        (mainRun input clusterFile).exitCode = 0
        ∧ ∃ (f : CsvFile) (gi : GroupIndex),
            input = some f ∧ read_rows f = Except.ok gi
            ∧ gi.isEmpty = false
            ∧ (mainRun input clusterFile).stdoutText
                = summaryLine (countItems gi) gi.length) := by
  rcases input with _ | f
  · refine ⟨by simp [mainRun, mainFails], fun _ => ⟨rfl, ?_⟩,
      fun h => absurd h (by decide)⟩
    simp only [mainRun]
    decide
  · by_cases he : f.fieldnames.isEmpty = true
    · have hn : find_col f.fieldnames nameCands = none := by
        unfold find_col
        rw [if_pos he]
      have hrr : read_rows f
          = Except.error (("CSV has no header row.").toList) := by
        unfold read_rows
        rw [if_pos he]
      have hmf : mainFails (some f) = true := by
        simp only [mainFails, hn]
      have hmr : mainRun (some f) clusterFile
          = ⟨1, [], ("CSV has no header row.").toList, none⟩ := by
        simp only [mainRun, hrr]
      rw [hmf, hmr]
      exact ⟨by simp, fun _ => ⟨rfl, by decide⟩, fun h => absurd h (by decide)⟩
    · rcases hn : find_col f.fieldnames nameCands with _ | nc
      · have hrr : read_rows f = Except.error
            (("Need NAME and TAG/CLUSTER columns (case-insensitive).").toList) := by
          unfold read_rows
          rw [if_neg he, hn]
        have hmf : mainFails (some f) = true := by
          simp only [mainFails, hn]
        have hmr : mainRun (some f) clusterFile = ⟨1, [],
            ("Need NAME and TAG/CLUSTER columns (case-insensitive).").toList,
            none⟩ := by
          simp only [mainRun, hrr]
        rw [hmf, hmr]
        exact ⟨by simp, fun _ => ⟨rfl, by decide⟩, fun h => absurd h (by decide)⟩
      · rcases ht : find_col f.fieldnames tagCands with _ | tc
        · have hrr : read_rows f = Except.error
              (("Need NAME and TAG/CLUSTER columns (case-insensitive).").toList) := by
            unfold read_rows
            rw [if_neg he, hn, ht]
          have hmf : mainFails (some f) = true := by
            simp only [mainFails, hn, ht]
          have hmr : mainRun (some f) clusterFile = ⟨1, [],
              ("Need NAME and TAG/CLUSTER columns (case-insensitive).").toList,
              none⟩ := by
            simp only [mainRun, hrr]
          rw [hmf, hmr]
          exact ⟨by simp, fun _ => ⟨rfl, by decide⟩, fun h => absurd h (by decide)⟩
        · have hrr : read_rows f = Except.ok (groupRows nc tc
              (find_col f.fieldnames urlCands)
              (find_col f.fieldnames charsCands) f.rows) := by
            unfold read_rows
            rw [if_neg he, hn, ht]
          have hmf : mainFails (some f) = (groupRows nc tc
              (find_col f.fieldnames urlCands)
              (find_col f.fieldnames charsCands) f.rows).isEmpty := by
            simp only [mainFails, hn, ht]
          by_cases hge : (groupRows nc tc (find_col f.fieldnames urlCands)
              (find_col f.fieldnames charsCands) f.rows).isEmpty = true
          · have hmr : mainRun (some f) clusterFile
                = ⟨1, [], ("No valid rows found.").toList, none⟩ := by
              simp only [mainRun, hrr, hge, if_true]
            rw [hmf, hge, hmr]
            exact ⟨by simp, fun _ => ⟨rfl, by decide⟩,
              fun h => absurd h (by decide)⟩
          · have hg := eq_false_of_ne_true hge
            have hmr : mainRun (some f) clusterFile = ⟨0,
                summaryLine
                  (countItems (groupRows nc tc
                    (find_col f.fieldnames urlCands)
                    (find_col f.fieldnames charsCands) f.rows))
                  (groupRows nc tc (find_col f.fieldnames urlCands)
                    (find_col f.fieldnames charsCands) f.rows).length,
                [],
                some (build_html (groupRows nc tc
                    (find_col f.fieldnames urlCands)
                    (find_col f.fieldnames charsCands) f.rows)
                  (read_cluster_info clusterFile))⟩ := by
              simp only [mainRun, hrr, hg, Bool.false_eq_true, if_false]
            rw [hmf, hg, hmr]
            exact ⟨by simp, fun h => absurd h (by decide),
              fun _ => ⟨rfl, f, _, rfl, hrr, hg, rfl⟩⟩

/-- First row of the end-to-end example file. -/
def exRow1 : Row :=
  [(("Name").toList, ("Alpha").toList), (("Tag").toList, ("Red").toList),
   (("Content URL").toList, ("http://x").toList),
   (("Characters").toList, ("Ann, Bob").toList)]

/-- Second row of the end-to-end example file. -/
def exRow2 : Row :=
  [(("Name").toList, ("Beta").toList), (("Tag").toList, ("Red").toList),
   (("Content URL").toList, ("").toList),
   (("Characters").toList, ("").toList)]

/-- The end-to-end example file: two valid rows in one cluster. -/
def exFile : CsvFile :=
  { fieldnames := [("Name").toList, ("Tag").toList,
      ("Content URL").toList, ("Characters").toList],
    rows := [exRow1, exRow2] }

set_option maxRecDepth 4000 in
/-- Witness for C4 at the concrete two-row example file. -/
theorem c4_exit_behavior_witness :
    mainFails (some exFile) = false
    ∧ (mainRun (some exFile) none).exitCode = 0 := by
  have hf : mainFails (some exFile) = false := by decide
  exact ⟨hf, ((c4_exit_behavior (some exFile) none).2.2 hf).1⟩

/-- A header that resolves neither the Name nor the Tag column. -/
def badHeaderFile : CsvFile :=
  { fieldnames := [("Foo").toList, ("Bar").toList], rows := [] }

/-- C8 counterexample: when the mandatory columns cannot be resolved
the diagnostic is a fixed message that contains neither of the header
names actually found. -/
theorem c8_missing_header_cex :
    read_rows badHeaderFile
      = Except.error
          (("Need NAME and TAG/CLUSTER columns (case-insensitive).").toList)
    ∧ containsSeq (("Foo").toList)
        (("Need NAME and TAG/CLUSTER columns (case-insensitive).").toList)
        = false
    ∧ containsSeq (("Bar").toList)
        (("Need NAME and TAG/CLUSTER columns (case-insensitive).").toList)
        = false :=
  ⟨rfl, by decide, by decide⟩

/-- C8 amended: when Name or Tag cannot be resolved the run aborts
before iterating any rows — the same fixed diagnostic results whatever
the data rows are — but the diagnostic is one of two fixed messages and
does not include the list of headers found. -/
theorem c8_missing_header_amended (header : List Str) (rows rows' : List Row)
    (h : find_col header nameCands = none
       ∨ find_col header tagCands = none) :
    ∃ msg : Str,
      read_rows ⟨header, rows⟩ = Except.error msg
      ∧ read_rows ⟨header, rows'⟩ = Except.error msg
      ∧ (msg = ("CSV has no header row.").toList
         ∨ msg = ("Need NAME and TAG/CLUSTER columns (case-insensitive).").toList)
      := by
  by_cases he : header.isEmpty = true
  · refine ⟨("CSV has no header row.").toList, ?_, ?_, Or.inl rfl⟩ <;>
      simp [read_rows, he]
  · have hne : header.isEmpty = false := eq_false_of_ne_true he
    refine ⟨("Need NAME and TAG/CLUSTER columns (case-insensitive).").toList,
      ?_, ?_, Or.inr rfl⟩ <;>
    · simp only [read_rows, hne, Bool.false_eq_true, if_false]
      rcases h with h | h
      · rw [h]
      · rw [h]
        cases find_col header nameCands <;> rfl

/-- Witness for the amended C8 at the Foo/Bar header. -/
theorem c8_missing_header_amended_witness :
    find_col [("Foo").toList, ("Bar").toList] nameCands = none
    ∧ ∃ msg : Str,
        read_rows ⟨[("Foo").toList, ("Bar").toList], []⟩ = Except.error msg
        ∧ read_rows ⟨[("Foo").toList, ("Bar").toList], [goodRow]⟩
            = Except.error msg
        ∧ (msg = ("CSV has no header row.").toList
           ∨ msg
              = ("Need NAME and TAG/CLUSTER columns (case-insensitive).").toList)
      :=
  ⟨by decide,
   c8_missing_header_amended [("Foo").toList, ("Bar").toList] [] [goodRow]
     (Or.inl (by decide))⟩

/-- Resolver written from the spec's words, for the refinement claim:
for each candidate in the caller-supplied priority order, return the
first header in declaration order whose normalized form equals the
candidate's normalized form; failing that, the first header in
declaration order whose normalized form contains the candidate's
normalized text as a substring (an empty candidate has no text and is
never substring-matched); absent when no candidate matches. -/
def specResolve (header : List Str) : List Str → Option Str
  | [] => none
  | c :: cs =>
    match header.find? (fun h => normStr h == normStr c) with
    | some h => some h
    | none =>
      match header.find? (fun h =>
          !(normStr c).isEmpty && containsSeq (normStr c) (normStr h)) with
      | some h => some h
      | none => specResolve header cs

/-- C1 counterexample: with headers xName and xname (which share one
normalized form) and candidate nam, the source's substring match
returns the last header carrying the matched normalized form, not the
first matching header in header-declaration order as the claim
states. -/
theorem c1_resolver_cex :
    find_col [("xName").toList, ("xname").toList] [("nam").toList]
        = some (("xname").toList)
    ∧ specResolve [("xName").toList, ("xname").toList] [("nam").toList]
        = some (("xName").toList)
    ∧ find_col [("xName").toList, ("xname").toList] [("nam").toList]
        ≠ specResolve [("xName").toList, ("xname").toList] [("nam").toList] :=
  ⟨by decide, by decide, by decide⟩

theorem insertNorm_fresh (d : List (Str × Str)) (k v : Str)
    (h : ∀ p ∈ d, p.1 ≠ k) : insertNorm d k v = d ++ [(k, v)] := by
  induction d with
  | nil => rfl
  | cons p rest ih =>
    obtain ⟨k', v'⟩ := p
    have hk : (k' == k) = false :=
      beq_eq_false_iff_ne.mpr (h (k', v') (List.mem_cons_self _ _))
    simp only [insertNorm, hk, Bool.false_eq_true, if_false, List.cons_append]
    exact congrArg _ (ih (fun p hp => h p (List.mem_cons_of_mem _ hp)))

theorem foldl_insertNorm_nodup (hs : List Str) :
    ∀ d : List (Str × Str),
      (d.map Prod.fst ++ hs.map normStr).Nodup →
      hs.foldl (fun d h => insertNorm d (normStr h) h) d
        = d ++ hs.map (fun h => (normStr h, h)) := by
  induction hs with
  | nil => intro d _; simp
  | cons h t ih =>
    intro d hnd
    rw [List.foldl_cons]
    have hfresh : ∀ p ∈ d, p.1 ≠ normStr h := by
      intro p hp heq
      rw [List.map_cons, List.nodup_append] at hnd
      exact hnd.2.2 (List.mem_map_of_mem Prod.fst hp)
        (heq ▸ List.mem_cons_self _ _)
    have hnd' : ((d ++ [(normStr h, h)]).map Prod.fst ++ t.map normStr).Nodup := by
      simp only [List.map_append, List.map_cons, List.map_nil,
        List.append_assoc, List.singleton_append]
      simpa using hnd
    rw [insertNorm_fresh d (normStr h) h hfresh, ih _ hnd']
    simp

theorem normDict_nodup (header : List Str)
    (hnd : (header.map normStr).Nodup) :
    normDict header = header.map (fun h => (normStr h, h)) := by
  have := foldl_insertNorm_nodup header [] (by simpa using hnd)
  simpa [normDict] using this

theorem specResolve_nil (cands : List Str) : specResolve [] cands = none := by
  induction cands with
  | nil => rfl
  | cons c cs ih =>
    simp only [specResolve, List.find?_nil]
    exact ih

theorem tryCand_map (header : List Str) (key : Str) :
    tryCand (header.map (fun h => (normStr h, h))) key
      = (match header.find? (fun h => normStr h == key) with
        | some h => some h
        | none =>
          match header.find? (fun h =>
              !key.isEmpty && containsSeq key (normStr h)) with
          | some h => some h
          | none => none) := by
  unfold tryCand
  rw [List.find?_map, List.find?_map]
  rw [show ((fun p : Str × Str => p.1 == key)
        ∘ (fun h => (normStr h, h))) = (fun h => normStr h == key) from rfl]
  rw [show ((fun p : Str × Str => !key.isEmpty && containsSeq key p.1)
        ∘ (fun h => (normStr h, h)))
      = (fun h => !key.isEmpty && containsSeq key (normStr h)) from rfl]
  cases h1 : header.find? (fun h => normStr h == key) with
  | some h => rfl
  | none =>
    cases h2 : header.find? (fun h =>
        !key.isEmpty && containsSeq key (normStr h)) with
    | some h => rfl
    | none => rfl

theorem findColAux_map (header : List Str) (cands : List Str) :
    findColAux (header.map (fun h => (normStr h, h))) cands
      = specResolve header cands := by
  induction cands with
  | nil => rfl
  | cons c cs ih =>
    show (match tryCand (header.map (fun h => (normStr h, h)))
            (normStr c) with
          | some v => some v
          | none => findColAux (header.map (fun h => (normStr h, h))) cs)
        = specResolve header (c :: cs)
    rw [tryCand_map, ih]
    simp only [specResolve]
    cases h1 : header.find? (fun h => normStr h == normStr c) with
    | some h => rfl
    | none =>
      cases h2 : header.find? (fun h =>
          !(normStr c).isEmpty && containsSeq (normStr c) (normStr h)) with
      | some h => rfl
      | none => rfl

/-- C1 amended: the resolver tries candidates in the caller-supplied
order, exact normalized match before substring match, returning the
first matching header's original text in header-declaration order —
provided no two headers share a trimmed-lowercased form.  When several
headers do share the matched normalized form, the resolver returns the
original text of the LAST such header (the reverse lookup keeps the
last header for each normalized form). -/
theorem c1_resolver_amended (header cands : List Str)
    (hnd : (header.map normStr).Nodup) :
    find_col header cands = specResolve header cands := by
  by_cases he : header.isEmpty = true
  · have hh : header = [] := List.isEmpty_iff.mp he
    subst hh
    rw [specResolve_nil]
    rfl
  · unfold find_col
    rw [if_neg he, normDict_nodup header hnd, findColAux_map]

/-- Witness for the amended C1: the spec's own substring example, a
header Content URL resolving the URL candidate list. -/
theorem c1_resolver_amended_witness :
    (([("Content URL").toList, ("Name").toList, ("Tag").toList]).map
        normStr).Nodup
    ∧ find_col [("Content URL").toList, ("Name").toList, ("Tag").toList]
          urlCands
        = specResolve [("Content URL").toList, ("Name").toList, ("Tag").toList]
          urlCands
    ∧ find_col [("Content URL").toList, ("Name").toList, ("Tag").toList]
          urlCands
        = some (("Content URL").toList) :=
  ⟨by decide,
   c1_resolver_amended [("Content URL").toList, ("Name").toList,
     ("Tag").toList] urlCands (by decide),
   by decide⟩

theorem forall2_insertNorm (k v1 v2 : Str) :
    ∀ (d1 d2 : List (Str × Str)),
      List.Forall₂ (fun p q => p.1 = q.1) d1 d2 →
      List.Forall₂ (fun p q => p.1 = q.1)
        (insertNorm d1 k v1) (insertNorm d2 k v2) := by
  intro d1 d2 h
  induction h with
  | nil => exact List.Forall₂.cons rfl List.Forall₂.nil
  | @cons p q l1 l2 hpq hrest ih =>
    obtain ⟨pk, pv⟩ := p
    obtain ⟨qk, qv⟩ := q
    have hpq' : pk = qk := hpq
    subst hpq'
    by_cases hk : (pk == k) = true
    · simp only [insertNorm, hk, if_true]
      exact List.Forall₂.cons rfl hrest
    · have hk' : (pk == k) = false := eq_false_of_ne_true hk
      simp only [insertNorm, hk', Bool.false_eq_true, if_false]
      exact List.Forall₂.cons rfl ih

theorem forall2_foldl_insertNorm (h1 h2 : List Str)
    (h : List.Forall₂ (fun a b => normStr a = normStr b) h1 h2) :
    ∀ d1 d2 : List (Str × Str),
      List.Forall₂ (fun p q => p.1 = q.1) d1 d2 →
      List.Forall₂ (fun p q => p.1 = q.1)
        (h1.foldl (fun d x => insertNorm d (normStr x) x) d1)
        (h2.foldl (fun d x => insertNorm d (normStr x) x) d2) := by
  induction h with
  | nil => intro d1 d2 hd; exact hd
  | @cons a b l1 l2 hab hrest ih =>
    intro d1 d2 hd
    rw [List.foldl_cons, List.foldl_cons]
    apply ih
    rw [hab]
    exact forall2_insertNorm (normStr b) a b d1 d2 hd

theorem forall2_find?_isSome (f : Str × Str → Bool)
    (hf : ∀ p q : Str × Str, p.1 = q.1 → f p = f q) :
    ∀ (d1 d2 : List (Str × Str)),
      List.Forall₂ (fun p q => p.1 = q.1) d1 d2 →
      (d1.find? f).isSome = (d2.find? f).isSome := by
  intro d1 d2 h
  induction h with
  | nil => rfl
  | @cons p q l1 l2 hpq hrest ih =>
    simp only [List.find?]
    rw [hf p q hpq]
    cases f q <;> simp [ih]

theorem forall2_tryCand_isSome (key : Str) (d1 d2 : List (Str × Str))
    (h : List.Forall₂ (fun p q => p.1 = q.1) d1 d2) :
    (tryCand d1 key).isSome = (tryCand d2 key).isSome := by
  unfold tryCand
  have e1 := forall2_find?_isSome (fun p => p.1 == key)
    (fun p q hpq => by simp only [hpq]) d1 d2 h
  have e2 := forall2_find?_isSome
    (fun p => !key.isEmpty && containsSeq key p.1)
    (fun p q hpq => by simp only [hpq]) d1 d2 h
  cases hf1 : d1.find? (fun p => p.1 == key) with
  | some p =>
    have hs : (d2.find? (fun p => p.1 == key)).isSome = true := by
      rw [← e1, hf1]
      rfl
    obtain ⟨q, hq⟩ := Option.isSome_iff_exists.mp hs
    rw [hq]
    rfl
  | none =>
    have hs : (d2.find? (fun p => p.1 == key)).isSome = false := by
      rw [← e1, hf1]
      rfl
    have h2n : d2.find? (fun p => p.1 == key) = none := by
      cases hy : d2.find? (fun p => p.1 == key)
      · rfl
      · rw [hy] at hs
        cases hs
    rw [h2n]
    cases hf2 : d1.find? (fun p => !key.isEmpty && containsSeq key p.1) with
    | some p =>
      have hs2 : (d2.find?
          (fun p => !key.isEmpty && containsSeq key p.1)).isSome = true := by
        rw [← e2, hf2]
        rfl
      obtain ⟨q, hq⟩ := Option.isSome_iff_exists.mp hs2
      rw [hq]
      rfl
    | none =>
      have hs2 : (d2.find?
          (fun p => !key.isEmpty && containsSeq key p.1)).isSome = false := by
        rw [← e2, hf2]
        rfl
      have h2n2 : d2.find?
          (fun p => !key.isEmpty && containsSeq key p.1) = none := by
        cases hy : d2.find? (fun p => !key.isEmpty && containsSeq key p.1)
        · rfl
        · rw [hy] at hs2
          cases hs2
      rw [h2n2]

theorem forall2_findColAux (d1 d2 : List (Str × Str))
    (hd : List.Forall₂ (fun p q => p.1 = q.1) d1 d2) :
    ∀ (c1 c2 : List Str),
      List.Forall₂ (fun a b => normStr a = normStr b) c1 c2 →
      (findColAux d1 c1).isSome = (findColAux d2 c2).isSome := by
  intro c1 c2 hc
  induction hc with
  | nil => rfl
  | @cons a b l1 l2 hab hrest ih =>
    simp only [findColAux]
    rw [← hab]
    have ht := forall2_tryCand_isSome (normStr a) d1 d2 hd
    cases hx : tryCand d1 (normStr a) with
    | some v =>
      have hs : (tryCand d2 (normStr a)).isSome = true := by
        rw [← ht, hx]
        rfl
      obtain ⟨w, hw⟩ := Option.isSome_iff_exists.mp hs
      rw [hw]
      rfl
    | none =>
      have hs : (tryCand d2 (normStr a)).isSome = false := by
        rw [← ht, hx]
        rfl
      have h2n : tryCand d2 (normStr a) = none := by
        cases hy : tryCand d2 (normStr a)
        · rfl
        · rw [hy] at hs
          cases hs
      rw [h2n]
      exact ih

/-- C5: two header rows whose entries agree after trimming and
lowercasing, and two candidate lists that likewise agree, produce the
same logical resolution: the column resolver resolves in one exactly
when it resolves in the other.  In particular resolution is fully
case-insensitive on both sides and ignores whitespace around header
names. -/
theorem c5_case_insensitive (h1 h2 c1 c2 : List Str)
    (hh : List.Forall₂ (fun a b => normStr a = normStr b) h1 h2)
    (hc : List.Forall₂ (fun a b => normStr a = normStr b) c1 c2) :
    (find_col h1 c1).isSome = (find_col h2 c2).isSome := by
  have hlen : h1.isEmpty = h2.isEmpty := by
    cases hh <;> rfl
  by_cases he : h1.isEmpty = true
  · unfold find_col
    rw [if_pos he, if_pos (hlen ▸ he)]
  · unfold find_col
    rw [if_neg he, if_neg (fun hcon => he (by rw [hlen]; exact hcon))]
    exact forall2_findColAux (normDict h1) (normDict h2)
      (forall2_foldl_insertNorm h1 h2 hh [] [] List.Forall₂.nil) c1 c2 hc

/-- Witness for C5: the headers Name and padded upper-case NAME resolve
alike. -/
theorem c5_case_insensitive_witness :
    List.Forall₂ (fun a b => normStr a = normStr b)
        [("Name").toList] [(" NAME ").toList]
    ∧ (find_col [("Name").toList] [("name").toList]).isSome
        = (find_col [(" NAME ").toList] [("name").toList]).isSome
    ∧ (find_col [("Name").toList] [("name").toList]).isSome = true :=
  ⟨List.Forall₂.cons (by decide) List.Forall₂.nil,
   c5_case_insensitive [("Name").toList] [(" NAME ").toList]
     [("name").toList] [("name").toList]
     (List.Forall₂.cons (by decide) List.Forall₂.nil)
     (List.Forall₂.cons (by decide) List.Forall₂.nil),
   by decide⟩
